import Mathlib

/-!
Verification development for the captain-signature storefront.

The definitions below are a shallow embedding of the shopping-cart,
pricing, checkout and order-status code of the repository:

- `Shop.Cart.*` embeds the `Cart` class of `src/cart.py` (the session
  dict is modelled as an association list from product key to item,
  matching Python dict semantics: unique keys, insertion order, in-place
  value update).
- `Shop.computeDeliveryFee` embeds the delivery-fee conditional that
  appears in `view_cart` and `checkout` in `src/app.py`.
- `Shop.checkout` embeds the POST branch of the `checkout` route of
  `src/app.py` (lines 884-1027): the database is modelled as an explicit
  `DBState`, the SQLAlchemy session/commit discipline as a pure function
  that either returns the committed state or the unchanged input state.
- `Shop.cancel_order` and `Shop.update_order_status` embed the customer
  and admin order-status routes of `src/app.py`.

Money amounts (Python floats used as decimal currency) are modelled as
rationals; quantities and stock are integers (`Product.stock` is a
plain integer column and the code can drive it negative).
-/

namespace Shop

/-- One line of the session cart: the dict value stored by
`Cart.add` in `src/cart.py` (`quantity`, `price`, `name`, `image`). -/
structure CartItem where
  quantity : Int
  price : Rat
  name : String
  image : String
  deriving Repr, DecidableEq

/-- The session cart: a Python dict from product key to item, modelled
as an association list with the dict's insertion-order semantics. -/
abbrev CartMap := List (Nat × CartItem)

namespace Cart

/-- Membership test `product_id in self.cart`. -/
def containsKey (c : CartMap) (pid : Nat) : Bool :=
  c.any (fun kv => kv.1 == pid)

/-- Dict lookup `self.cart[product_id]` (first entry with the key). -/
def lookup : CartMap → Nat → Option CartItem
  | [], _ => none
  | kv :: rest, pid => if kv.1 = pid then some kv.2 else lookup rest pid

/-- Number of entries of the cart carrying a given key (1 at most for a
well-formed dict; used to state that `add` never duplicates a key). -/
def countKey (c : CartMap) (pid : Nat) : Nat :=
  (c.filter (fun kv => kv.1 == pid)).length

/-- `Cart.add` of `src/cart.py`: increment the quantity when the key is
present, otherwise insert a fresh item at the end. -/
def add (c : CartMap) (pid : Nat) (quantity : Int) (price : Rat)
    (name : String) (image : String) : CartMap :=
  if containsKey c pid then
    c.map (fun kv =>
      if kv.1 = pid then (kv.1, { kv.2 with quantity := kv.2.quantity + quantity }) else kv)
  else
    c ++ [(pid, ⟨quantity, price, name, image⟩)]

/-- `Cart.update` of `src/cart.py`: on a present key, delete when the
new quantity is `<= 0`, otherwise overwrite the quantity; on an absent
key, do nothing. -/
def update (c : CartMap) (pid : Nat) (quantity : Int) : CartMap :=
  if containsKey c pid then
    if quantity ≤ 0 then
      c.filter (fun kv => kv.1 != pid)
    else
      c.map (fun kv => if kv.1 = pid then (kv.1, { kv.2 with quantity := quantity }) else kv)
  else c

/-- `Cart.remove` of `src/cart.py`. -/
def remove (c : CartMap) (pid : Nat) : CartMap :=
  if containsKey c pid then c.filter (fun kv => kv.1 != pid) else c

/-- `Cart.clear` of `src/cart.py`. -/
def clear (_ : CartMap) : CartMap := []

/-- `Cart.get_subtotal` of `src/cart.py`: running sum of
`price * quantity` over the entries (all entries of the typed model are
well-formed, so the `isinstance` guard is always taken). -/
def get_subtotal (c : CartMap) : Rat :=
  c.foldl (fun total kv => total + kv.2.price * (kv.2.quantity : Rat)) 0

/-- `Cart.get_delivery_fee` of `src/cart.py`: the hard-coded 1500.00. -/
def get_delivery_fee (_ : CartMap) : Rat := 1500

/-- `Cart.get_total` of `src/cart.py`. -/
def get_total (c : CartMap) : Rat := get_subtotal c + get_delivery_fee c

/-- `Cart.get_total_items` of `src/cart.py`: running sum of quantities. -/
def get_total_items (c : CartMap) : Int :=
  c.foldl (fun total kv => total + kv.2.quantity) 0

/-- `Cart.get_items_count` of `src/cart.py`. -/
def get_items_count (c : CartMap) : Nat := c.length

/-- The cart invariant of the spec: every entry present in the cart has
quantity at least 1. -/
def allPositive (c : CartMap) : Prop := ∀ kv ∈ c, 1 ≤ kv.2.quantity

theorem lookup_eq_none_iff (c : CartMap) (pid : Nat) :
    lookup c pid = none ↔ containsKey c pid = false := by
  induction c with
  | nil => simp [lookup, containsKey]
  | cons kv rest ih =>
    by_cases h : kv.1 = pid
    · simp [lookup, containsKey, h]
    · simp [lookup, containsKey, h, ih]

theorem lookup_none_append (c l : CartMap) (pid : Nat)
    (h : lookup c pid = none) : lookup (c ++ l) pid = lookup l pid := by
  induction c with
  | nil => simp
  | cons kv rest ih =>
    by_cases hk : kv.1 = pid
    · simp [lookup, hk] at h
    · simp [lookup, hk] at h ⊢
      exact ih h

/-- In-place modification of the value stored at one key, as Python
performs it on the dict entry (`self.cart[product_id][...] = ...`). -/
def modifyQty (c : CartMap) (pid : Nat) (g : CartItem → CartItem) : CartMap :=
  c.map (fun kv => if kv.1 = pid then (kv.1, g kv.2) else kv)

theorem add_of_contains (c : CartMap) (pid : Nat) (q : Int) (p : Rat)
    (n i : String) (h : containsKey c pid = true) :
    add c pid q p n i = modifyQty c pid (fun it => { it with quantity := it.quantity + q }) := by
  simp [add, modifyQty, h]

theorem add_of_not_contains (c : CartMap) (pid : Nat) (q : Int) (p : Rat)
    (n i : String) (h : containsKey c pid = false) :
    add c pid q p n i = c ++ [(pid, ⟨q, p, n, i⟩)] := by
  simp [add, h]

theorem update_of_contains_pos (c : CartMap) (pid : Nat) (q : Int)
    (h : containsKey c pid = true) (hq : ¬ q ≤ 0) :
    update c pid q = modifyQty c pid (fun it => { it with quantity := q }) := by
  simp [update, modifyQty, h, hq]

theorem update_of_contains_nonpos (c : CartMap) (pid : Nat) (q : Int)
    (h : containsKey c pid = true) (hq : q ≤ 0) :
    update c pid q = c.filter (fun kv => kv.1 != pid) := by
  simp [update, h, hq]

theorem update_of_not_contains (c : CartMap) (pid : Nat) (q : Int)
    (h : containsKey c pid = false) : update c pid q = c := by
  simp [update, h]

theorem lookup_modifyQty (c : CartMap) (pid : Nat) (g : CartItem → CartItem) :
    lookup (modifyQty c pid g) pid = (lookup c pid).map g := by
  induction c with
  | nil => simp [lookup, modifyQty]
  | cons kv rest ih =>
    by_cases hk : kv.1 = pid
    · simp [lookup, modifyQty, hk]
    · simp [lookup, modifyQty, hk] at ih ⊢
      exact ih

theorem countKey_modifyQty (c : CartMap) (pid pid0 : Nat) (g : CartItem → CartItem) :
    countKey (modifyQty c pid0 g) pid = countKey c pid := by
  induction c with
  | nil => rfl
  | cons kv rest ih =>
    have hkey : (if kv.1 = pid0 then (kv.1, g kv.2) else kv).1 = kv.1 := by
      by_cases hk : kv.1 = pid0 <;> simp [hk]
    simp only [countKey, modifyQty, List.map_cons, List.filter_cons, hkey] at ih ⊢
    by_cases hp : kv.1 = pid <;> simp [hp, ih]

theorem countKey_eq_zero (c : CartMap) (pid : Nat) (h : lookup c pid = none) :
    countKey c pid = 0 := by
  induction c with
  | nil => rfl
  | cons kv rest ih =>
    by_cases hk : kv.1 = pid
    · simp [lookup, hk] at h
    · simp [lookup, hk] at h
      simp [countKey, List.filter_cons, hk] at ih ⊢
      exact ih h

theorem countKey_append (c l : CartMap) (pid : Nat) :
    countKey (c ++ l) pid = countKey c pid + countKey l pid := by
  simp [countKey, List.filter_append]

theorem lookup_filter_ne (c : CartMap) (pid : Nat) :
    lookup (c.filter (fun kv => kv.1 != pid)) pid = none := by
  induction c with
  | nil => rfl
  | cons kv rest ih =>
    rw [List.filter_cons]
    by_cases hk : kv.1 = pid
    · simp [hk]
      exact ih
    · simp [hk, lookup]
      exact ih

end Cart

end Shop

/-- C6: starting from a cart in which `pid` is absent, `add pid q1`
inserts a single fresh entry holding exactly the given quantity, price,
name and image, and a second `add pid q2` merges into that same single
entry, leaving quantity `q1 + q2` — never two entries for one key. -/
theorem Shop.add_merges_quantities (c : Shop.CartMap) (pid : Nat)
    (q1 q2 : Int) (p1 p2 : Rat) (n1 n2 i1 i2 : String)
    (habs : Shop.Cart.lookup c pid = none) :
    Shop.Cart.lookup (Shop.Cart.add c pid q1 p1 n1 i1) pid = some ⟨q1, p1, n1, i1⟩
    ∧ Shop.Cart.lookup
        (Shop.Cart.add (Shop.Cart.add c pid q1 p1 n1 i1) pid q2 p2 n2 i2) pid
        = some ⟨q1 + q2, p1, n1, i1⟩
    ∧ Shop.Cart.countKey
        (Shop.Cart.add (Shop.Cart.add c pid q1 p1 n1 i1) pid q2 p2 n2 i2) pid
        = 1 := by
  have hck : Shop.Cart.containsKey c pid = false :=
    (Shop.Cart.lookup_eq_none_iff c pid).mp habs
  have hadd1 : Shop.Cart.add c pid q1 p1 n1 i1 = c ++ [(pid, ⟨q1, p1, n1, i1⟩)] :=
    Shop.Cart.add_of_not_contains c pid q1 p1 n1 i1 hck
  have hlk1 : Shop.Cart.lookup (Shop.Cart.add c pid q1 p1 n1 i1) pid
      = some ⟨q1, p1, n1, i1⟩ := by
    rw [hadd1, Shop.Cart.lookup_none_append c _ pid habs]
    simp [Shop.Cart.lookup]
  have hck1 : Shop.Cart.containsKey (Shop.Cart.add c pid q1 p1 n1 i1) pid = true := by
    rw [hadd1]
    simp [Shop.Cart.containsKey, List.any_append]
  have hadd2 : Shop.Cart.add (Shop.Cart.add c pid q1 p1 n1 i1) pid q2 p2 n2 i2
      = Shop.Cart.modifyQty (Shop.Cart.add c pid q1 p1 n1 i1) pid
          (fun it => { it with quantity := it.quantity + q2 }) :=
    Shop.Cart.add_of_contains _ pid q2 p2 n2 i2 hck1
  refine ⟨hlk1, ?_, ?_⟩
  · rw [hadd2, Shop.Cart.lookup_modifyQty, hlk1]
    rfl
  · rw [hadd2, Shop.Cart.countKey_modifyQty, hadd1,
      Shop.Cart.countKey_append, Shop.Cart.countKey_eq_zero c pid habs]
    simp [Shop.Cart.countKey, List.filter_cons]

/-- Witness for C6 at a concrete cart. -/
theorem Shop.add_merges_quantities_witness :
    Shop.Cart.lookup
        (Shop.Cart.add (Shop.Cart.add [(7, ⟨1, 250, "x", "y"⟩)] 3 2 500 "a" "b")
          3 4 999 "c" "d") 3
      = some ⟨6, 500, "a", "b"⟩ :=
  (Shop.add_merges_quantities [(7, ⟨1, 250, "x", "y"⟩)] 3 2 4 500 999
    "a" "c" "b" "d" (by decide)).2.1

/-- C7: `update` with a non-positive quantity removes the entry for the
key entirely; with a positive quantity on a present key it overwrites
that entry's quantity (keeping price, name and image); on an absent key
it leaves the cart unchanged. -/
theorem Shop.update_spec (c : Shop.CartMap) (pid : Nat) (q : Int) :
    (q ≤ 0 → Shop.Cart.lookup (Shop.Cart.update c pid q) pid = none)
    ∧ (0 < q → ∀ it, Shop.Cart.lookup c pid = some it →
        Shop.Cart.lookup (Shop.Cart.update c pid q) pid
          = some { it with quantity := q })
    ∧ (Shop.Cart.lookup c pid = none → Shop.Cart.update c pid q = c) := by
  refine ⟨?_, ?_, ?_⟩
  · intro hq
    by_cases hck : Shop.Cart.containsKey c pid = true
    · rw [Shop.Cart.update_of_contains_nonpos c pid q hck hq]
      exact Shop.Cart.lookup_filter_ne c pid
    · rw [Shop.Cart.update_of_not_contains c pid q (by simpa using hck)]
      exact (Shop.Cart.lookup_eq_none_iff c pid).mpr (by simpa using hck)
  · intro hq it hit
    have hck : Shop.Cart.containsKey c pid = true := by
      by_contra hfalse
      rw [(Shop.Cart.lookup_eq_none_iff c pid).mpr (by simpa using hfalse)] at hit
      exact Option.noConfusion hit
    rw [Shop.Cart.update_of_contains_pos c pid q hck (by omega),
      Shop.Cart.lookup_modifyQty, hit]
    rfl
  · intro hnone
    exact Shop.Cart.update_of_not_contains c pid q
      ((Shop.Cart.lookup_eq_none_iff c pid).mp hnone)

/-- Witness for C7 at concrete carts. -/
theorem Shop.update_spec_witness :
    Shop.Cart.lookup (Shop.Cart.update [(1, ⟨2, 5, "a", "b"⟩)] 1 0) 1 = none
    ∧ Shop.Cart.lookup (Shop.Cart.update [(1, ⟨2, 5, "a", "b"⟩)] 1 3) 1
        = some ⟨3, 5, "a", "b"⟩
    ∧ Shop.Cart.update [(2, ⟨4, 7, "c", "d"⟩)] 1 3 = [(2, ⟨4, 7, "c", "d"⟩)] :=
  ⟨(Shop.update_spec [(1, ⟨2, 5, "a", "b"⟩)] 1 0).1 (by decide),
   (Shop.update_spec [(1, ⟨2, 5, "a", "b"⟩)] 1 3).2.1 (by decide) ⟨2, 5, "a", "b"⟩ rfl,
   (Shop.update_spec [(2, ⟨4, 7, "c", "d"⟩)] 1 3).2.2 rfl⟩

/-- C8: assuming every `add` call carries quantity at least 1, each cart
operation preserves the invariant that every entry present in the cart
has quantity at least 1. -/
theorem Shop.cart_quantity_invariant (c : Shop.CartMap)
    (h : Shop.Cart.allPositive c) :
    (∀ pid q p n i, 1 ≤ q → Shop.Cart.allPositive (Shop.Cart.add c pid q p n i))
    ∧ (∀ pid q, Shop.Cart.allPositive (Shop.Cart.update c pid q))
    ∧ (∀ pid, Shop.Cart.allPositive (Shop.Cart.remove c pid))
    ∧ Shop.Cart.allPositive (Shop.Cart.clear c) := by
  have hfilter : ∀ pid, Shop.Cart.allPositive (c.filter (fun kv => kv.1 != pid)) := by
    intro pid kv hkv
    exact h kv (List.mem_of_mem_filter hkv)
  have hmodify : ∀ pid (g : Shop.CartItem → Shop.CartItem),
      (∀ it, 1 ≤ it.quantity → 1 ≤ (g it).quantity) →
      Shop.Cart.allPositive (Shop.Cart.modifyQty c pid g) := by
    intro pid g hg kv hkv
    rcases List.mem_map.mp hkv with ⟨kv0, hkv0, heq⟩
    by_cases hk : kv0.1 = pid
    · rw [if_pos hk] at heq
      rw [← heq]
      exact hg kv0.2 (h kv0 hkv0)
    · rw [if_neg hk] at heq
      rw [← heq]
      exact h kv0 hkv0
  refine ⟨?_, ?_, ?_, ?_⟩
  · intro pid q p n i hq
    by_cases hck : Shop.Cart.containsKey c pid = true
    · rw [Shop.Cart.add_of_contains c pid q p n i hck]
      exact hmodify pid _ (fun it hit => by simp only []; omega)
    · rw [Shop.Cart.add_of_not_contains c pid q p n i (by simpa using hck)]
      intro kv hkv
      rcases List.mem_append.mp hkv with hmem | hmem
      · exact h kv hmem
      · rcases List.mem_singleton.mp hmem with rfl
        exact hq
  · intro pid q
    by_cases hck : Shop.Cart.containsKey c pid = true
    · by_cases hq : q ≤ 0
      · rw [Shop.Cart.update_of_contains_nonpos c pid q hck hq]
        exact hfilter pid
      · rw [Shop.Cart.update_of_contains_pos c pid q hck hq]
        exact hmodify pid _ (fun it hit => by simp only []; omega)
    · rw [Shop.Cart.update_of_not_contains c pid q (by simpa using hck)]
      exact h
  · intro pid
    by_cases hck : Shop.Cart.containsKey c pid = true
    · simp only [Shop.Cart.remove, hck, if_pos]
      exact hfilter pid
    · simp only [Shop.Cart.remove]
      rw [if_neg (by simpa using hck)]
      exact h
  · intro kv hkv
    simp [Shop.Cart.clear] at hkv

/-- Witness for C8 at a concrete cart. -/
theorem Shop.cart_quantity_invariant_witness :
    Shop.Cart.allPositive
      (Shop.Cart.add [(1, ⟨2, 5, "a", "b"⟩)] 2 1 250 "" "") :=
  (Shop.cart_quantity_invariant [(1, ⟨2, 5, "a", "b"⟩)]
    (by intro kv hkv; simp at hkv; rw [hkv]; decide)).1 2 1 250 "" "" (by decide)

/-- C10: the Cart class's own delivery-fee and total methods use the
hard-coded 1500.00 fee and never consult any settings: `get_delivery_fee`
is the constant 1500 and `get_total` is the subtotal plus 1500. -/
theorem Shop.cart_methods_fixed_fee (c : Shop.CartMap) :
    Shop.Cart.get_delivery_fee c = 1500
    ∧ Shop.Cart.get_total c = Shop.Cart.get_subtotal c + 1500 :=
  ⟨rfl, rfl⟩

/-- The settings row consumed by the routes (`Settings` model of
`src/models.py`): flat delivery fee, free-delivery threshold, currency. -/
structure Shop.Settings where
  delivery_fee : Rat
  free_delivery_threshold : Rat
  currency : String
  deriving Repr, DecidableEq

/-- The delivery-fee conditional of `view_cart` and of the `checkout`
POST branch in `src/app.py`: fee 0 when the threshold is positive and
the subtotal reaches it, otherwise the configured flat fee. -/
def Shop.computeDeliveryFee (settings : Shop.Settings) (subtotal : Rat) : Rat :=
  if 0 < settings.free_delivery_threshold
      ∧ settings.free_delivery_threshold ≤ subtotal then 0
  else settings.delivery_fee

/-- The order total of `src/app.py` (`total = subtotal + delivery_fee`). -/
def Shop.orderTotal (settings : Shop.Settings) (subtotal : Rat) : Rat :=
  subtotal + Shop.computeDeliveryFee settings subtotal

/-- C3 counterexample: with a configured flat fee of 0 (a value the
admin settings route accepts) the computed delivery fee is 0 even
though the free-delivery condition is false — so the fee is not 0
exactly when the threshold is positive and reached, refuting the
claim's biconditional at this settings configuration. -/
theorem Shop.delivery_fee_zero_flat_fee :
    Shop.computeDeliveryFee ⟨0, 0, "N"⟩ 2000 = 0
    ∧ ¬(0 < (Shop.Settings.mk 0 0 "N").free_delivery_threshold
        ∧ (Shop.Settings.mk 0 0 "N").free_delivery_threshold ≤ 2000) := by
  decide

/-- C3 (amended): for every settings and subtotal, the computed
delivery fee is 0 if the free-delivery threshold is positive and the
subtotal reaches it (the boundary subtotal = threshold included), and
otherwise equals the configured flat fee — in particular a zero
threshold disables free delivery, so the flat fee applies regardless of
subtotal — and the total is the subtotal plus the delivery fee;
whenever the configured flat fee is nonzero, the fee is 0 exactly in
the threshold case. -/
theorem Shop.delivery_fee_rules (s : Shop.Settings) (subtotal : Rat) :
    ((0 < s.free_delivery_threshold ∧ s.free_delivery_threshold ≤ subtotal) →
        Shop.computeDeliveryFee s subtotal = 0)
    ∧ (¬(0 < s.free_delivery_threshold ∧ s.free_delivery_threshold ≤ subtotal) →
        Shop.computeDeliveryFee s subtotal = s.delivery_fee)
    ∧ (s.free_delivery_threshold = 0 →
        Shop.computeDeliveryFee s subtotal = s.delivery_fee)
    ∧ Shop.orderTotal s subtotal = subtotal + Shop.computeDeliveryFee s subtotal
    ∧ (s.delivery_fee ≠ 0 →
        (Shop.computeDeliveryFee s subtotal = 0 ↔
          0 < s.free_delivery_threshold ∧ s.free_delivery_threshold ≤ subtotal)) := by
  refine ⟨?_, ?_, ?_, rfl, ?_⟩
  · intro hcond
    rw [Shop.computeDeliveryFee, if_pos hcond]
  · intro hcond
    rw [Shop.computeDeliveryFee, if_neg hcond]
  · intro hzero
    rw [Shop.computeDeliveryFee, if_neg]
    rintro ⟨hpos, -⟩
    rw [hzero] at hpos
    exact lt_irrefl 0 hpos
  · intro hfee
    constructor
    · intro h0
      by_contra hcond
      rw [Shop.computeDeliveryFee, if_neg hcond] at h0
      exact hfee h0
    · intro hcond
      rw [Shop.computeDeliveryFee, if_pos hcond]

/-- Witness for C3: threshold 1800, subtotal exactly 1800 gives free
delivery; threshold 0 gives the flat fee regardless of subtotal. -/
theorem Shop.delivery_fee_rules_witness :
    Shop.computeDeliveryFee ⟨1500, 1800, "N"⟩ 1800 = 0
    ∧ Shop.computeDeliveryFee ⟨1500, 0, "N"⟩ 2000 = 1500 :=
  ⟨(Shop.delivery_fee_rules ⟨1500, 1800, "N"⟩ 1800).1 ⟨by norm_num, by norm_num⟩,
   (Shop.delivery_fee_rules ⟨1500, 0, "N"⟩ 2000).2.2.1 rfl⟩

/-- The `Product` model of `src/models.py`: `stock` is a plain integer
column with no non-negativity constraint. -/
structure Shop.Product where
  id : Nat
  name : String
  description : String
  price : Rat
  category : String
  image : String
  stock : Int
  deriving Repr, DecidableEq

/-- The `Order` model of `src/models.py` restricted to the columns the
routes under study read or write (`order_date` and `delivered_date` are
timestamps in seconds). -/
structure Shop.OrderRec where
  id : Nat
  user_id : Nat
  status : String
  subtotal : Rat
  delivery_fee : Rat
  total_amount : Rat
  shipping_name : String
  shipping_address : String
  shipping_city : String
  shipping_state : String
  shipping_phone : String
  shipping_email : String
  payment_method : String
  payment_status : String
  customer_notes : String
  order_date : Nat
  delivered_date : Option Nat
  deriving Repr, DecidableEq

/-- The `OrderItem` model of `src/models.py`. -/
structure Shop.OrderItem where
  order_id : Nat
  product_id : Nat
  quantity : Int
  price : Rat
  product_name : String
  product_image : String
  deriving Repr, DecidableEq

/-- The `OrderTracking` model of `src/models.py` (status audit log). -/
structure Shop.OrderTracking where
  order_id : Nat
  status : String
  description : String
  updated_by : String
  deriving Repr, DecidableEq

/-- The committed database: the four tables the checkout and
order-status routes touch. -/
structure Shop.DBState where
  products : List Shop.Product
  orders : List Shop.OrderRec
  order_items : List Shop.OrderItem
  tracking : List Shop.OrderTracking
  deriving Repr, DecidableEq

/-- Committed database plus the session cart of the current shopper. -/
structure Shop.AppState where
  db : Shop.DBState
  cart : Shop.CartMap
  deriving Repr, DecidableEq

/-- The shipping form fields read by the `checkout` POST branch. -/
structure Shop.CheckoutForm where
  shipping_name : String
  shipping_address : String
  shipping_city : String
  shipping_state : String
  shipping_phone : String
  customer_notes : String
  deriving Repr, DecidableEq

/-- `NIGERIA_STATES` of `src/models.py`. -/
def Shop.NIGERIA_STATES : List String :=
  ["Abia", "Adamawa", "Akwa Ibom", "Anambra", "Bauchi", "Bayelsa", "Benue",
   "Borno", "Cross River", "Delta", "Ebonyi", "Edo", "Ekiti", "Enugu",
   "FCT - Abuja", "Gombe", "Imo", "Jigawa", "Kaduna", "Kano", "Katsina",
   "Kebbi", "Kogi", "Kwara", "Lagos", "Nasarawa", "Niger", "Ogun", "Ondo",
   "Osun", "Oyo", "Plateau", "Rivers", "Sokoto", "Taraba", "Yobe", "Zamfara"]

/-- `Product.query.get(pid)`: primary-key lookup (first row with the id). -/
def Shop.getProduct (products : List Shop.Product) (pid : Nat) : Option Shop.Product :=
  products.find? (fun p => p.id == pid)

/-- `Order.query.get(oid)`: primary-key lookup. -/
def Shop.getOrder (orders : List Shop.OrderRec) (oid : Nat) : Option Shop.OrderRec :=
  orders.find? (fun o => o.id == oid)

/-- Stock of a product as seen through a primary-key lookup. -/
def Shop.stockOf (db : Shop.DBState) (pid : Nat) : Option Int :=
  (Shop.getProduct db.products pid).map Shop.Product.stock

/-- The autoincrement id handed to the new order at `db.session.flush()`. -/
def Shop.freshOrderId (db : Shop.DBState) : Nat := db.orders.length + 1

/-- In-place mutation of the stock column of the row with the given id,
as the ORM performs `product.stock -= quantity` / `+= quantity` on the
row object fetched by primary key. -/
def Shop.adjustStock (products : List Shop.Product) (pid : Nat) (g : Int → Int) :
    List Shop.Product :=
  products.map (fun p => if p.id = pid then { p with stock := g p.stock } else p)

/-- The order-item loop of the `checkout` POST branch (`src/app.py`
lines 941-952): for each cart line, look the product up (a missing
product raises, aborting the whole uncommitted transaction — modelled
as `none`), create the `OrderItem` snapshot, and decrement the
product's stock by the requested quantity. No stock check is made. -/
def Shop.processCartItems (products : List Shop.Product) (orderId : Nat) :
    Shop.CartMap → Option (List Shop.Product × List Shop.OrderItem)
  | [] => some (products, [])
  | (pid, item) :: rest =>
    match Shop.getProduct products pid with
    | none => none
    | some product =>
      let oi : Shop.OrderItem :=
        ⟨orderId, product.id, item.quantity, item.price, product.name, product.image⟩
      let products1 := Shop.adjustStock products pid (fun st => st - item.quantity)
      match Shop.processCartItems products1 orderId rest with
      | none => none
      | some (ps, ois) => some (ps, oi :: ois)

/-- What the `checkout` route replied with. -/
inductive Shop.CheckoutOutcome where
  | emptyCart
  | invalidState
  | errorRedirect
  | placed (orderId : Nat)
  deriving Repr, DecidableEq

/-- Reply, the state after the request, and the result of the
notification dispatch (`none` when the dispatch was never reached,
`some r` when it ran and reported `r`; its exceptions are swallowed). -/
structure Shop.CheckoutResult where
  outcome : Shop.CheckoutOutcome
  state : Shop.AppState
  emailResult : Option Bool
  deriving Repr, DecidableEq

/-- The POST branch of the `checkout` route of `src/app.py` (lines
884-1027). Uncommitted session mutations vanish on any failure (the
route's outer exception handler redirects and the request transaction
is never committed), so every failure reply carries the unchanged
state; the single `db.session.commit()` installs the order row, the
line items, the stock decrements and the tracking event at once, after
which the cart is cleared and the notification dispatch is attempted
with its outcome ignored. -/
def Shop.checkout (s : Shop.AppState) (userId : Nat) (userEmail : String)
    (form : Shop.CheckoutForm) (settings : Shop.Settings) (now : Nat)
    (emailOk : Bool) : Shop.CheckoutResult :=
  if Shop.Cart.get_total_items s.cart = 0 then
    ⟨.emptyCart, s, none⟩
  else if form.shipping_state ∉ Shop.NIGERIA_STATES then
    ⟨.invalidState, s, none⟩
  else
    let subtotal := Shop.Cart.get_subtotal s.cart
    let delivery_fee := Shop.computeDeliveryFee settings subtotal
    let total_amount := subtotal + delivery_fee
    let oid := Shop.freshOrderId s.db
    match Shop.processCartItems s.db.products oid s.cart with
    | none => ⟨.errorRedirect, s, none⟩
    | some (products1, items1) =>
      let order : Shop.OrderRec :=
        { id := oid, user_id := userId, status := "pending",
          subtotal := subtotal, delivery_fee := delivery_fee,
          total_amount := total_amount,
          shipping_name := form.shipping_name,
          shipping_address := form.shipping_address,
          shipping_city := form.shipping_city,
          shipping_state := form.shipping_state,
          shipping_phone := form.shipping_phone,
          shipping_email := userEmail,
          payment_method := "cash_on_delivery",
          payment_status := "pending",
          customer_notes := form.customer_notes,
          order_date := now, delivered_date := none }
      let tracking : Shop.OrderTracking :=
        ⟨oid, "pending", "Order placed successfully (Cash on Delivery)", "system"⟩
      let db1 : Shop.DBState :=
        ⟨products1, s.db.orders ++ [order],
         s.db.order_items ++ items1, s.db.tracking ++ [tracking]⟩
      ⟨.placed oid, ⟨db1, Shop.Cart.clear s.cart⟩, some emailOk⟩

/-- Concrete checkout run for the stock-validation check: the catalog
holds one product (id 1, stock 3) and the cart requests 5 units of it,
with a valid shipping state and default settings. -/
def Shop.oversellRun : Shop.CheckoutResult :=
  Shop.checkout
    ⟨⟨[⟨1, "Widget", "A widget", 500, "general", "w.jpg", 3⟩], [], [], []⟩,
     [(1, ⟨5, 500, "Widget", "w.jpg"⟩)]⟩
    1 "ada@example.com"
    ⟨"Ada", "12 Road", "Ikeja", "Lagos", "0801", ""⟩
    ⟨1500, 0, "N"⟩ 100 true

/-- C1 at its failing input: the cart requests 5 units although only 3
are in stock, yet checkout succeeds, persists the order with its line
item, and drives the product's stock to -2 — no InsufficientStock
condition exists anywhere in the route. -/
theorem Shop.checkout_skips_stock_validation :
    (5 : Int) > 3
    ∧ Shop.oversellRun.outcome = .placed 1
    ∧ Shop.stockOf Shop.oversellRun.state.db 1 = some (-2)
    ∧ Shop.oversellRun.state.db.orders.length = 1
    ∧ Shop.oversellRun.state.db.order_items =
        [⟨1, 1, 5, 500, "Widget", "w.jpg"⟩] := by
  decide

theorem Shop.getProduct_id (products : List Shop.Product) (pid : Nat)
    (p : Shop.Product) (h : Shop.getProduct products pid = some p) : p.id = pid := by
  have := List.find?_some h
  simpa using this


theorem Shop.getProduct_cons (x : Shop.Product) (l : List Shop.Product) (pid : Nat) :
    Shop.getProduct (x :: l) pid
      = if x.id = pid then some x else Shop.getProduct l pid := by
  by_cases h : x.id = pid
  · rw [if_pos h]
    exact List.find?_cons_of_pos _ (by simp [h])
  · rw [if_neg h]
    exact List.find?_cons_of_neg _ (by simp [h])

theorem Shop.adjustStock_cons (x : Shop.Product) (l : List Shop.Product)
    (pid : Nat) (g : Int → Int) :
    Shop.adjustStock (x :: l) pid g
      = (if x.id = pid then { x with stock := g x.stock } else x) ::
          Shop.adjustStock l pid g := rfl

theorem Shop.getProduct_adjustStock_self (products : List Shop.Product)
    (pid : Nat) (g : Int → Int) :
    Shop.getProduct (Shop.adjustStock products pid g) pid
      = (Shop.getProduct products pid).map (fun p => { p with stock := g p.stock }) := by
  induction products with
  | nil => rfl
  | cons p rest ih =>
    rw [Shop.adjustStock_cons, Shop.getProduct_cons, Shop.getProduct_cons]
    by_cases hk : p.id = pid
    · simp [hk]
    · simp [hk, ih]

theorem Shop.getProduct_adjustStock_ne (products : List Shop.Product)
    (pid pid0 : Nat) (g : Int → Int) (hne : pid ≠ pid0) :
    Shop.getProduct (Shop.adjustStock products pid0 g) pid
      = Shop.getProduct products pid := by
  induction products with
  | nil => rfl
  | cons p rest ih =>
    rw [Shop.adjustStock_cons, Shop.getProduct_cons, Shop.getProduct_cons]
    by_cases hk : p.id = pid0
    · have hnp : ¬ p.id = pid := by rw [hk]; exact fun he => hne he.symm
      simp [hk, hnp, ih, Ne.symm hne]
    · by_cases hp : p.id = pid
      · simp [hk, hp, hne]
      · simp [hk, hp, ih]

theorem Shop.lookup_eq_none_of_not_mem (c : Shop.CartMap) (pid : Nat)
    (h : pid ∉ c.map Prod.fst) : Shop.Cart.lookup c pid = none := by
  induction c with
  | nil => rfl
  | cons kv rest ih =>
    simp only [List.map_cons, List.mem_cons, not_or] at h
    rw [Shop.Cart.lookup, if_neg (fun he => h.1 he.symm)]
    exact ih h.2

theorem Shop.processCartItems_spec (oid : Nat) :
    ∀ (cart : Shop.CartMap) (products ps : List Shop.Product)
      (ois : List Shop.OrderItem),
      (cart.map Prod.fst).Nodup →
      Shop.processCartItems products oid cart = some (ps, ois) →
      (∀ pid, Shop.Cart.lookup cart pid = none →
        Shop.getProduct ps pid = Shop.getProduct products pid)
      ∧ (∀ pid item, Shop.Cart.lookup cart pid = some item →
          ∃ p, Shop.getProduct products pid = some p
            ∧ Shop.getProduct ps pid
                = some { p with stock := p.stock - item.quantity }
            ∧ (⟨oid, pid, item.quantity, item.price, p.name, p.image⟩ :
                Shop.OrderItem) ∈ ois) := by
  intro cart
  induction cart with
  | nil =>
    intro products ps ois _ h
    simp only [Shop.processCartItems, Option.some_inj, Prod.mk.injEq] at h
    refine ⟨fun pid _ => by rw [← h.1], fun pid item hit => ?_⟩
    simp [Shop.Cart.lookup] at hit
  | cons kv rest ih =>
    rcases kv with ⟨pid0, it0⟩
    intro products ps ois hnodup h
    rw [List.map_cons] at hnodup
    rcases List.nodup_cons.mp hnodup with ⟨hnotmem, hnodup_rest⟩
    rw [Shop.processCartItems] at h
    cases h0 : Shop.getProduct products pid0 with
    | none =>
      simp only [h0] at h
      exact Option.noConfusion h
    | some p0 =>
      simp only [h0] at h
      cases h1 : Shop.processCartItems
          (Shop.adjustStock products pid0 (fun st => st - it0.quantity)) oid rest with
      | none =>
        simp only [h1] at h
        exact Option.noConfusion h
      | some pair =>
        rcases pair with ⟨ps0, ois0⟩
        simp only [h1, Option.some_inj, Prod.mk.injEq] at h
        obtain ⟨rfl, rfl⟩ := h
        have hrest0 : Shop.Cart.lookup rest pid0 = none :=
          Shop.lookup_eq_none_of_not_mem rest pid0 hnotmem
        have hid0 : p0.id = pid0 := Shop.getProduct_id products pid0 p0 h0
        have IH := ih (Shop.adjustStock products pid0 (fun st => st - it0.quantity))
          ps0 ois0 hnodup_rest h1
        constructor
        · intro pid hnone
          rw [Shop.Cart.lookup] at hnone
          by_cases hpe : pid0 = pid
          · rw [if_pos hpe] at hnone
            exact absurd hnone (by simp)
          · rw [if_neg hpe] at hnone
            rw [IH.1 pid hnone]
            exact Shop.getProduct_adjustStock_ne products pid pid0 _
              (fun he => hpe he.symm)
        · intro pid item hsome
          rw [Shop.Cart.lookup] at hsome
          by_cases hpe : pid0 = pid
          · rw [if_pos hpe] at hsome
            subst hpe
            have hitem : item = it0 := by
              injection hsome with h2
              exact h2.symm
            subst hitem
            refine ⟨p0, h0, ?_, ?_⟩
            · rw [IH.1 pid0 hrest0, Shop.getProduct_adjustStock_self, h0]
              rfl
            · rw [← hid0]
              exact List.mem_cons_self _ _
          · rw [if_neg hpe] at hsome
            rcases IH.2 pid item hsome with ⟨p, hp, hps2, hmem⟩
            rw [Shop.getProduct_adjustStock_ne products pid pid0 _
              (fun he => hpe he.symm)] at hp
            exact ⟨p, hp, hps2, List.mem_cons_of_mem _ hmem⟩

/-- C2: checkout is all-or-nothing. When the reply is not a placed
order, the whole state (catalog, orders, line items, tracking, cart) is
exactly the input state; when an order is placed, the order row, a line
item and a stock decrement for every cart line, the initial pending
tracking event and the cart-clear all appear in the one returned state,
and products outside the cart keep their stock. -/
theorem Shop.checkout_atomic (s : Shop.AppState) (userId : Nat)
    (userEmail : String) (form : Shop.CheckoutForm) (settings : Shop.Settings)
    (now : Nat) (emailOk : Bool)
    (hnodup : (s.cart.map Prod.fst).Nodup) :
    ((∀ oid, (Shop.checkout s userId userEmail form settings now emailOk).outcome
        ≠ Shop.CheckoutOutcome.placed oid) →
      (Shop.checkout s userId userEmail form settings now emailOk).state = s)
    ∧ (∀ oid, (Shop.checkout s userId userEmail form settings now emailOk).outcome
        = Shop.CheckoutOutcome.placed oid →
      (Shop.checkout s userId userEmail form settings now emailOk).state.cart = []
      ∧ (∃ order : Shop.OrderRec,
          (Shop.checkout s userId userEmail form settings now emailOk).state.db.orders
            = s.db.orders ++ [order]
          ∧ order.id = oid ∧ order.status = "pending")
      ∧ (Shop.checkout s userId userEmail form settings now emailOk).state.db.tracking
          = s.db.tracking ++
            [⟨oid, "pending", "Order placed successfully (Cash on Delivery)", "system"⟩]
      ∧ (∀ pid item, Shop.Cart.lookup s.cart pid = some item →
          ∃ st, Shop.stockOf s.db pid = some st
            ∧ Shop.stockOf
                (Shop.checkout s userId userEmail form settings now emailOk).state.db pid
                = some (st - item.quantity)
            ∧ ∃ oi ∈ (Shop.checkout s userId userEmail form settings
                  now emailOk).state.db.order_items,
                oi.order_id = oid ∧ oi.product_id = pid
                ∧ oi.quantity = item.quantity ∧ oi.price = item.price)
      ∧ (∀ pid, Shop.Cart.lookup s.cart pid = none →
          Shop.stockOf
              (Shop.checkout s userId userEmail form settings now emailOk).state.db pid
            = Shop.stockOf s.db pid)) := by
  by_cases h0 : Shop.Cart.get_total_items s.cart = 0
  · constructor
    · intro _
      simp [Shop.checkout, h0]
    · intro oid hplaced
      simp [Shop.checkout, h0] at hplaced
  · by_cases h1 : form.shipping_state ∈ Shop.NIGERIA_STATES
    · cases hp : Shop.processCartItems s.db.products (Shop.freshOrderId s.db) s.cart with
      | none =>
        constructor
        · intro _
          simp [Shop.checkout, h0, h1, hp]
        · intro oid hplaced
          simp [Shop.checkout, h0, h1, hp] at hplaced
      | some pair =>
        rcases pair with ⟨products1, items1⟩
        have hspec := Shop.processCartItems_spec (Shop.freshOrderId s.db)
          s.cart s.db.products products1 items1 hnodup hp
        constructor
        · intro hnot
          exact absurd (by simp [Shop.checkout, h0, h1, hp])
            (hnot (Shop.freshOrderId s.db))
        · intro oid hplaced
          have hoid : oid = Shop.freshOrderId s.db := by
            simp [Shop.checkout, h0, h1, hp] at hplaced
            exact hplaced.symm
          subst hoid
          refine ⟨by simp [Shop.checkout, h0, h1, hp, Shop.Cart.clear], ?_, ?_, ?_, ?_⟩
          · refine ⟨⟨Shop.freshOrderId s.db, userId, "pending",
                Shop.Cart.get_subtotal s.cart,
                Shop.computeDeliveryFee settings (Shop.Cart.get_subtotal s.cart),
                Shop.Cart.get_subtotal s.cart
                  + Shop.computeDeliveryFee settings (Shop.Cart.get_subtotal s.cart),
                form.shipping_name, form.shipping_address, form.shipping_city,
                form.shipping_state, form.shipping_phone, userEmail,
                "cash_on_delivery", "pending", form.customer_notes, now, none⟩,
              by simp [Shop.checkout, h0, h1, hp], rfl, rfl⟩
          · simp [Shop.checkout, h0, h1, hp]
          · intro pid item hit
            rcases hspec.2 pid item hit with ⟨p, hgp, hgp1, hmem⟩
            refine ⟨p.stock, ?_, ?_, ?_⟩
            · rw [Shop.stockOf, hgp]
              rfl
            · have : (Shop.checkout s userId userEmail form settings
                  now emailOk).state.db.products = products1 := by
                simp [Shop.checkout, h0, h1, hp]
              rw [Shop.stockOf, this, hgp1]
              rfl
            · refine ⟨⟨Shop.freshOrderId s.db, pid, item.quantity, item.price,
                  p.name, p.image⟩, ?_, rfl, rfl, rfl, rfl⟩
              have : (Shop.checkout s userId userEmail form settings
                  now emailOk).state.db.order_items = s.db.order_items ++ items1 := by
                simp [Shop.checkout, h0, h1, hp]
              rw [this]
              exact List.mem_append_right _ hmem
          · intro pid hnone
            have : (Shop.checkout s userId userEmail form settings
                now emailOk).state.db.products = products1 := by
              simp [Shop.checkout, h0, h1, hp]
            rw [Shop.stockOf, this, hspec.1 pid hnone]
            rfl
    · constructor
      · intro _
        simp [Shop.checkout, h0, h1]
      · intro oid hplaced
        simp [Shop.checkout, h0, h1] at hplaced

/-- Witness for C2: a concrete placed order clears the cart. -/
theorem Shop.checkout_atomic_witness :
    (Shop.checkout
        ⟨⟨[⟨1, "W", "d", 500, "c", "i", 10⟩], [], [], []⟩, [(1, ⟨2, 500, "W", "i"⟩)]⟩
        1 "e@x" ⟨"n", "a", "c", "Lagos", "p", ""⟩ ⟨1500, 0, "N"⟩ 5 true).state.cart
      = [] :=
  ((Shop.checkout_atomic
      ⟨⟨[⟨1, "W", "d", 500, "c", "i", 10⟩], [], [], []⟩, [(1, ⟨2, 500, "W", "i"⟩)]⟩
      1 "e@x" ⟨"n", "a", "c", "Lagos", "p", ""⟩ ⟨1500, 0, "N"⟩ 5 true
      (by decide)).2 1 (by decide)).1

/-- C9: the notification dispatch is decoupled from the transaction.
The reply and the resulting state of checkout are identical whether the
notification succeeds or fails, and the dispatch is reached exactly on
the success path — that is, only once the order has been committed (the
placed order is present in the very state the dispatch observes). -/
theorem Shop.notification_decoupled (s : Shop.AppState) (userId : Nat)
    (userEmail : String) (form : Shop.CheckoutForm) (settings : Shop.Settings)
    (now : Nat) :
    ((Shop.checkout s userId userEmail form settings now true).outcome
        = (Shop.checkout s userId userEmail form settings now false).outcome)
    ∧ ((Shop.checkout s userId userEmail form settings now true).state
        = (Shop.checkout s userId userEmail form settings now false).state)
    ∧ (∀ emailOk : Bool,
        ((Shop.checkout s userId userEmail form settings now emailOk).emailResult ≠ none
          ↔ ∃ oid, (Shop.checkout s userId userEmail form settings now emailOk).outcome
              = Shop.CheckoutOutcome.placed oid))
    ∧ (∀ emailOk : Bool, ∀ oid,
        (Shop.checkout s userId userEmail form settings now emailOk).outcome
            = Shop.CheckoutOutcome.placed oid →
        ∃ order ∈ (Shop.checkout s userId userEmail
            form settings now emailOk).state.db.orders, order.id = oid) := by
  by_cases h0 : Shop.Cart.get_total_items s.cart = 0
  · refine ⟨by simp [Shop.checkout, h0], by simp [Shop.checkout, h0], ?_, ?_⟩
    · intro emailOk
      simp [Shop.checkout, h0]
    · intro emailOk oid hplaced
      simp [Shop.checkout, h0] at hplaced
  · by_cases h1 : form.shipping_state ∈ Shop.NIGERIA_STATES
    · cases hp : Shop.processCartItems s.db.products (Shop.freshOrderId s.db) s.cart with
      | none =>
        refine ⟨by simp [Shop.checkout, h0, h1, hp],
          by simp [Shop.checkout, h0, h1, hp], ?_, ?_⟩
        · intro emailOk
          simp [Shop.checkout, h0, h1, hp]
        · intro emailOk oid hplaced
          simp [Shop.checkout, h0, h1, hp] at hplaced
      | some pair =>
        rcases pair with ⟨products1, items1⟩
        refine ⟨by simp [Shop.checkout, h0, h1, hp],
          by simp [Shop.checkout, h0, h1, hp], ?_, ?_⟩
        · intro emailOk
          simp [Shop.checkout, h0, h1, hp]
        · intro emailOk oid hplaced
          have hoid : oid = Shop.freshOrderId s.db := by
            simp [Shop.checkout, h0, h1, hp] at hplaced
            exact hplaced.symm
          subst hoid
          refine ⟨⟨Shop.freshOrderId s.db, userId, "pending",
              Shop.Cart.get_subtotal s.cart,
              Shop.computeDeliveryFee settings (Shop.Cart.get_subtotal s.cart),
              Shop.Cart.get_subtotal s.cart
                + Shop.computeDeliveryFee settings (Shop.Cart.get_subtotal s.cart),
              form.shipping_name, form.shipping_address, form.shipping_city,
              form.shipping_state, form.shipping_phone, userEmail,
              "cash_on_delivery", "pending", form.customer_notes, now, none⟩, ?_, rfl⟩
          have : (Shop.checkout s userId userEmail form settings
              now emailOk).state.db.orders
              = s.db.orders ++ [⟨Shop.freshOrderId s.db, userId, "pending",
                Shop.Cart.get_subtotal s.cart,
                Shop.computeDeliveryFee settings (Shop.Cart.get_subtotal s.cart),
                Shop.Cart.get_subtotal s.cart
                  + Shop.computeDeliveryFee settings (Shop.Cart.get_subtotal s.cart),
                form.shipping_name, form.shipping_address, form.shipping_city,
                form.shipping_state, form.shipping_phone, userEmail,
                "cash_on_delivery", "pending", form.customer_notes, now, none⟩] := by
            simp [Shop.checkout, h0, h1, hp]
          rw [this]
          exact List.mem_append_right _ (List.mem_singleton_self _)
    · refine ⟨by simp [Shop.checkout, h0, h1], by simp [Shop.checkout, h0, h1], ?_, ?_⟩
      · intro emailOk
        simp [Shop.checkout, h0, h1]
      · intro emailOk oid hplaced
        simp [Shop.checkout, h0, h1] at hplaced

/-- Witness for C9 at a concrete checkout run. -/
theorem Shop.notification_decoupled_witness :
    (Shop.checkout
        ⟨⟨[⟨1, "W", "d", 500, "c", "i", 10⟩], [], [], []⟩, [(1, ⟨2, 500, "W", "i"⟩)]⟩
        1 "e@x" ⟨"n", "a", "c", "Lagos", "p", ""⟩ ⟨1500, 0, "N"⟩ 5 true).state
      = (Shop.checkout
        ⟨⟨[⟨1, "W", "d", 500, "c", "i", 10⟩], [], [], []⟩, [(1, ⟨2, 500, "W", "i"⟩)]⟩
        1 "e@x" ⟨"n", "a", "c", "Lagos", "p", ""⟩ ⟨1500, 0, "N"⟩ 5 false).state :=
  (Shop.notification_decoupled
      ⟨⟨[⟨1, "W", "d", 500, "c", "i", 10⟩], [], [], []⟩, [(1, ⟨2, 500, "W", "i"⟩)]⟩
      1 "e@x" ⟨"n", "a", "c", "Lagos", "p", ""⟩ ⟨1500, 0, "N"⟩ 5).2.1

/-- The line items of one order (`order.items` relationship). -/
def Shop.orderItems (db : Shop.DBState) (oid : Nat) : List Shop.OrderItem :=
  db.order_items.filter (fun oi => oi.order_id == oid)

/-- The stock-restoration loop of `cancel_order` (`src/app.py` lines
1190-1194): for each line item, fetch the product and, when it still
exists, add the line's quantity back to its stock. -/
def Shop.restoreStock (products : List Shop.Product) :
    List Shop.OrderItem → List Shop.Product
  | [] => products
  | oi :: rest =>
    let products1 :=
      match Shop.getProduct products oi.product_id with
      | none => products
      | some _ => Shop.adjustStock products oi.product_id (fun st => st + oi.quantity)
    Shop.restoreStock products1 rest

/-- In-place `order.status = ...` mutation on the row with the given id
(customer cancellation path). -/
def Shop.setStatus (orders : List Shop.OrderRec) (oid : Nat) (status : String) :
    List Shop.OrderRec :=
  orders.map (fun o => if o.id = oid then { o with status := status } else o)

/-- In-place status mutation of the admin route, which additionally
stamps `delivered_date` when the new status is `delivered`. -/
def Shop.adminSetStatus (orders : List Shop.OrderRec) (oid : Nat)
    (status : String) (now : Nat) : List Shop.OrderRec :=
  orders.map (fun o =>
    if o.id = oid then
      { o with status := status,
               delivered_date := if status = "delivered" then some now
                                 else o.delivered_date }
    else o)

/-- The committed effect of a permitted customer cancellation
(`src/app.py` lines 1185-1204): status set to cancelled, stock of every
line item restored, and the tracking event appended — one transaction. -/
def Shop.applyCancel (db : Shop.DBState) (order : Shop.OrderRec) : Shop.DBState :=
  ⟨Shop.restoreStock db.products (Shop.orderItems db order.id),
   Shop.setStatus db.orders order.id "cancelled",
   db.order_items,
   db.tracking ++ [⟨order.id, "cancelled", "Order cancelled by customer", "customer"⟩]⟩

/-- Reply of the customer `cancel_order` route. -/
inductive Shop.CancelOutcome where
  | notFound
  | forbidden
  | cancelled
  | rejected (message : String)
  deriving Repr, DecidableEq

/-- The customer `cancel_order` route of `src/app.py` (lines 1155-1219):
ownership check, then the status gate (delivered, already-cancelled and
shipped orders are refused; processing orders only within 3600 seconds
of `order_date`; pending orders always), then the atomic cancellation. -/
def Shop.cancel_order (db : Shop.DBState) (order_id : Nat) (userId : Nat)
    (now : Nat) : Shop.CancelOutcome × Shop.DBState :=
  match Shop.getOrder db.orders order_id with
  | none => (.notFound, db)
  | some order =>
    if order.user_id ≠ userId then (.forbidden, db)
    else if order.status = "delivered" then
      (.rejected "Cannot cancel an order that has already been delivered.", db)
    else if order.status = "cancelled" then
      (.rejected "This order is already cancelled.", db)
    else if order.status = "shipped" then
      (.rejected "Cannot cancel an order that has already been shipped.", db)
    else if order.status = "processing" then
      if now - order.order_date < 3600 then
        (.cancelled, Shop.applyCancel db order)
      else
        (.rejected "Cancellation window has expired (only available within 1 hour of ordering). Please contact customer service.", db)
    else if order.status = "pending" then
      (.cancelled, Shop.applyCancel db order)
    else (.rejected "", db)

/-- The status whitelist of the admin route. -/
def Shop.valid_statuses : List String :=
  ["pending", "processing", "shipped", "delivered", "cancelled"]

/-- Reply of the admin `update_order_status` route. -/
inductive Shop.AdminUpdateOutcome where
  | invalidStatus
  | notFound
  | updated
  deriving Repr, DecidableEq

/-- The admin `update_order_status` route of `src/app.py` (lines
1414-1455): after the whitelist check and the order lookup it sets the
requested status unconditionally — no transition rule, and no stock
restoration on cancellation — and appends the tracking event. -/
def Shop.update_order_status (db : Shop.DBState) (order_id : Nat)
    (status : String) (now : Nat) : Shop.AdminUpdateOutcome × Shop.DBState :=
  if status ∉ Shop.valid_statuses then (.invalidStatus, db)
  else
    match Shop.getOrder db.orders order_id with
    | none => (.notFound, db)
    | some order =>
      (.updated,
        ⟨db.products,
         Shop.adminSetStatus db.orders order_id status now,
         db.order_items,
         db.tracking ++ [⟨order_id, status,
           "Order status updated from " ++ order.status ++ " to " ++ status,
           "admin"⟩]⟩)

/-- Total quantity the line items hold for one product id (specification
device for the stock-restoration theorems). -/
def Shop.lineQty : List Shop.OrderItem → Nat → Int
  | [], _ => 0
  | oi :: rest, pid =>
    (if oi.product_id = pid then oi.quantity else 0) + Shop.lineQty rest pid

theorem Shop.getOrder_cons (o : Shop.OrderRec) (l : List Shop.OrderRec) (oid : Nat) :
    Shop.getOrder (o :: l) oid
      = if o.id = oid then some o else Shop.getOrder l oid := by
  by_cases h : o.id = oid
  · rw [if_pos h]
    exact List.find?_cons_of_pos _ (by simp [h])
  · rw [if_neg h]
    exact List.find?_cons_of_neg _ (by simp [h])

theorem Shop.getOrder_id (orders : List Shop.OrderRec) (oid : Nat)
    (o : Shop.OrderRec) (h : Shop.getOrder orders oid = some o) : o.id = oid := by
  have := List.find?_some h
  simpa using this

theorem Shop.getOrder_setStatus_self (orders : List Shop.OrderRec)
    (oid : Nat) (status : String) :
    Shop.getOrder (Shop.setStatus orders oid status) oid
      = (Shop.getOrder orders oid).map (fun o => { o with status := status }) := by
  induction orders with
  | nil => rfl
  | cons o rest ih =>
    have hcons : Shop.setStatus (o :: rest) oid status
        = (if o.id = oid then { o with status := status } else o)
            :: Shop.setStatus rest oid status := rfl
    rw [hcons, Shop.getOrder_cons, Shop.getOrder_cons]
    by_cases hk : o.id = oid
    · simp [hk]
    · simp [hk, ih]

theorem Shop.getOrder_adminSetStatus_self (orders : List Shop.OrderRec)
    (oid : Nat) (status : String) (now : Nat) :
    Shop.getOrder (Shop.adminSetStatus orders oid status now) oid
      = (Shop.getOrder orders oid).map (fun o =>
          { o with status := status,
                   delivered_date := if status = "delivered" then some now
                                     else o.delivered_date }) := by
  induction orders with
  | nil => rfl
  | cons o rest ih =>
    have hcons : Shop.adminSetStatus (o :: rest) oid status now
        = (if o.id = oid then
              { o with status := status,
                       delivered_date := if status = "delivered" then some now
                                         else o.delivered_date }
            else o)
            :: Shop.adminSetStatus rest oid status now := rfl
    rw [hcons, Shop.getOrder_cons, Shop.getOrder_cons]
    by_cases hk : o.id = oid
    · simp [hk]
    · simp [hk, ih]

theorem Shop.getProduct_restoreStock (items : List Shop.OrderItem) :
    ∀ (products : List Shop.Product) (pid : Nat),
      Shop.getProduct (Shop.restoreStock products items) pid
        = (Shop.getProduct products pid).map
            (fun p => { p with stock := p.stock + Shop.lineQty items pid }) := by
  induction items with
  | nil =>
    intro products pid
    cases h : Shop.getProduct products pid <;>
      simp [Shop.restoreStock, Shop.lineQty, h]
  | cons oi rest ih =>
    intro products pid
    rw [Shop.restoreStock]
    cases hg : Shop.getProduct products oi.product_id with
    | none =>
      simp only [hg]
      rw [ih products pid]
      by_cases hpe : oi.product_id = pid
      · rw [← hpe, hg]
        rfl
      · simp [Shop.lineQty, hpe]
    | some p0 =>
      simp only [hg]
      rw [ih _ pid]
      by_cases hpe : pid = oi.product_id
      · subst hpe
        rw [Shop.getProduct_adjustStock_self, hg]
        simp [Shop.lineQty, add_assoc]
      · rw [Shop.getProduct_adjustStock_ne _ _ _ _ hpe]
        have : ¬ oi.product_id = pid := fun he => hpe he.symm
        simp [Shop.lineQty, this]

/-- C4 (amended): a permitted customer cancellation restores stock —
after it, every product's stock is the old stock plus the total
quantity the cancelled order's line items held for it — and sets the
order's status to cancelled, both in the single committed state; the
admin status route, by contrast, never touches the products table, so
an admin-initiated cancellation restores no stock. -/
theorem Shop.cancel_restores_stock (db : Shop.DBState)
    (order_id userId now : Nat) (db2 : Shop.DBState)
    (h : Shop.cancel_order db order_id userId now
        = (Shop.CancelOutcome.cancelled, db2)) :
    (∀ pid, Shop.stockOf db2 pid
        = (Shop.getProduct db.products pid).map
            (fun p => p.stock + Shop.lineQty (Shop.orderItems db order_id) pid))
    ∧ (Shop.getOrder db2.orders order_id).map Shop.OrderRec.status
        = some "cancelled"
    ∧ (∀ (dbA : Shop.DBState) (oidA : Nat) (stA : String) (nowA : Nat),
        ((Shop.update_order_status dbA oidA stA nowA).2).products
          = dbA.products) := by
  have hadmin : ∀ (dbA : Shop.DBState) (oidA : Nat) (stA : String) (nowA : Nat),
      ((Shop.update_order_status dbA oidA stA nowA).2).products = dbA.products := by
    intro dbA oidA stA nowA
    by_cases hv : stA ∈ Shop.valid_statuses
    · cases hO : Shop.getOrder dbA.orders oidA <;>
        simp [Shop.update_order_status, hv, hO]
    · simp [Shop.update_order_status, hv]
  cases hOrd : Shop.getOrder db.orders order_id with
  | none =>
    simp only [Shop.cancel_order, hOrd] at h
    exact absurd h (by simp)
  | some order =>
    have hid := Shop.getOrder_id db.orders order_id order hOrd
    have hmain : db2 = Shop.applyCancel db order →
        (∀ pid, Shop.stockOf db2 pid
            = (Shop.getProduct db.products pid).map
                (fun p => p.stock + Shop.lineQty (Shop.orderItems db order_id) pid))
        ∧ (Shop.getOrder db2.orders order_id).map Shop.OrderRec.status
            = some "cancelled"
        ∧ (∀ (dbA : Shop.DBState) (oidA : Nat) (stA : String) (nowA : Nat),
            ((Shop.update_order_status dbA oidA stA nowA).2).products
              = dbA.products) := by
      intro hdb2
      subst hdb2
      refine ⟨?_, ?_, hadmin⟩
      · intro pid
        simp only [Shop.stockOf, Shop.applyCancel]
        rw [hid, Shop.getProduct_restoreStock]
        cases Shop.getProduct db.products pid <;> rfl
      · simp [Shop.applyCancel, hid, Shop.getOrder_setStatus_self, hOrd]
    simp only [Shop.cancel_order, hOrd] at h
    split_ifs at h with h1 h2 h3 h4 h5 h6 h7
    · exact absurd h (by simp)
    · exact absurd h (by simp)
    · exact absurd h (by simp)
    · exact absurd h (by simp)
    · refine hmain ?_
      injection h with hA hB
      exact hB.symm
    · exact absurd h (by simp)
    · refine hmain ?_
      injection h with hA hB
      exact hB.symm
    · exact absurd h (by simp)

/-- Database for the C4 counterexample: a processing order for 2 units
of a product whose stock is 7. -/
def Shop.adminCancelDB : Shop.DBState :=
  ⟨[⟨1, "W", "d", 500, "c", "i", 7⟩],
   [⟨1, 9, "processing", 1000, 1500, 2500, "n", "a", "ct", "Lagos", "p", "e",
     "cash_on_delivery", "pending", "", 0, none⟩],
   [⟨1, 1, 2, 500, "W", "i"⟩], []⟩

/-- C4 counterexample: the admin route transitions the order to
cancelled, yet the product's stock stays 7 instead of the 7 + 2 the
claim demands for every transition to cancelled. -/
theorem Shop.admin_cancel_skips_restock :
    (Shop.update_order_status Shop.adminCancelDB 1 "cancelled" 50).1
      = Shop.AdminUpdateOutcome.updated
    ∧ (Shop.getOrder
        (Shop.update_order_status Shop.adminCancelDB 1 "cancelled" 50).2.orders
        1).map Shop.OrderRec.status = some "cancelled"
    ∧ Shop.stockOf (Shop.update_order_status Shop.adminCancelDB 1 "cancelled" 50).2 1
        = some 7
    ∧ ¬ Shop.stockOf
        (Shop.update_order_status Shop.adminCancelDB 1 "cancelled" 50).2 1
        = some (7 + 2) := by
  decide

/-- Database for the C4 witness: a pending order of user 9 for 3 units
of a product whose stock is 5. -/
def Shop.customerCancelDB : Shop.DBState :=
  ⟨[⟨1, "W", "d", 500, "c", "i", 5⟩],
   [⟨1, 9, "pending", 1000, 1500, 2500, "n", "a", "ct", "Lagos", "p", "e",
     "cash_on_delivery", "pending", "", 0, none⟩],
   [⟨1, 1, 3, 500, "W", "i"⟩], []⟩

/-- Witness for C4: the customer cancellation restores 5 + 3 = 8. -/
theorem Shop.cancel_restores_stock_witness :
    Shop.stockOf (Shop.cancel_order Shop.customerCancelDB 1 9 10).2 1 = some 8 := by
  have h := Shop.cancel_restores_stock Shop.customerCancelDB 1 9 10
    (Shop.cancel_order Shop.customerCancelDB 1 9 10).2 (by decide)
  rw [h.1 1]
  decide

/-- C5 (amended): the customer cancellation route refuses to cancel a
shipped or delivered order and returns the database unchanged; the
admin status route enforces no transition rule at all — from any
current status, shipped and delivered included, it sets any
whitelisted status, cancelled included. -/
theorem Shop.status_transition_rules (db : Shop.DBState)
    (order_id userId now : Nat) (order : Shop.OrderRec)
    (hord : Shop.getOrder db.orders order_id = some order)
    (hst : order.status = "shipped" ∨ order.status = "delivered") :
    ((Shop.cancel_order db order_id userId now).2 = db
      ∧ (Shop.cancel_order db order_id userId now).1
          ≠ Shop.CancelOutcome.cancelled)
    ∧ (∀ st, st ∈ Shop.valid_statuses →
        (Shop.update_order_status db order_id st now).1
            = Shop.AdminUpdateOutcome.updated
        ∧ (Shop.getOrder
            (Shop.update_order_status db order_id st now).2.orders
            order_id).map Shop.OrderRec.status = some st) := by
  constructor
  · rcases hst with hs | hs
    · by_cases hu : order.user_id = userId <;>
        simp [Shop.cancel_order, hord, hs, hu]
    · by_cases hu : order.user_id = userId <;>
        simp [Shop.cancel_order, hord, hs, hu]
  · intro st hstv
    constructor
    · simp [Shop.update_order_status, hstv, hord]
    · simp [Shop.update_order_status, hstv, hord,
        Shop.getOrder_adminSetStatus_self]

/-- Database for the C5 counterexample and witness: a single shipped
order belonging to user 9. -/
def Shop.shippedOrderDB : Shop.DBState :=
  ⟨[], [⟨1, 9, "shipped", 1000, 1500, 2500, "n", "a", "ct", "Lagos", "p", "e",
     "cash_on_delivery", "pending", "", 0, none⟩], [], []⟩

/-- C5 counterexample: the admin route happily performs the
shipped-to-cancelled transition and mutates the order, although the
claim says every status-change operation rejects it. -/
theorem Shop.admin_accepts_shipped_to_cancelled :
    (Shop.update_order_status Shop.shippedOrderDB 1 "cancelled" 50).1
      = Shop.AdminUpdateOutcome.updated
    ∧ (Shop.getOrder
        (Shop.update_order_status Shop.shippedOrderDB 1 "cancelled" 50).2.orders
        1).map Shop.OrderRec.status = some "cancelled"
    ∧ (Shop.update_order_status Shop.shippedOrderDB 1 "cancelled" 50).2
        ≠ Shop.shippedOrderDB := by
  decide

/-- Witness for C5: the customer route leaves the shipped order's
database untouched. -/
theorem Shop.status_transition_rules_witness :
    (Shop.cancel_order Shop.shippedOrderDB 1 9 10).2 = Shop.shippedOrderDB :=
  ((Shop.status_transition_rules Shop.shippedOrderDB 1 9 10
      ⟨1, 9, "shipped", 1000, 1500, 2500, "n", "a", "ct", "Lagos", "p", "e",
        "cash_on_delivery", "pending", "", 0, none⟩
      (by decide) (Or.inl rfl)).1).1
